import Mathlib

/-!
Verification development for the ILC SDK server adapter (`src/index.ts`).

The TypeScript class `IlcSdk` decodes composer-provided metadata from an
inbound request's query string (`processRequest`, with helpers
`getRequestUrls` and `getPassedProps`) and encodes rendering output into
response headers (`processResponse`, with helpers `getLinkHeader` and
`buildLink`).

Shallow embedding conventions:
- The parsed request URL is modelled by `UrlModel`: the query parameters
  `routerProps` and `appProps` are carried as `Option` values, already run
  through the external base64 + `JSON.parse` pipeline (`Buffer.from` and
  `JSON.parse` are platform collaborators, not repository code); a
  `Except.error e` value records that `JSON.parse` raised an exception with
  message `e`.
- The logger (`this.log.warn`) is modelled by returning a list of
  `LogEntry` values alongside each result.
- A thrown exception is modelled by `Except.error`.
- `ServerResponse` headers are modelled as an association list with
  last-write-wins `setHeader` semantics.
- Node's `path.posix.relative` / `path.posix.resolve` are modelled on
  segment lists; the process working directory (only relevant for
  non-absolute inputs) is modelled as `/`.
- The `url-join` npm package (v4) used by `buildLink` is modelled by
  `urljoin2` below, following its `normalize` pipeline for a two-element
  argument array.
-/

/-! ### Character-list helpers -/

/-- Boolean prefix test on character lists. -/
def isPrefixChars : List Char → List Char → Bool
  | [], _ => true
  | _ :: _, [] => false
  | a :: as, b :: bs => a == b && isPrefixChars as bs

/-- Boolean substring (contiguous) test on character lists; models
JavaScript `String.prototype.includes` for the pattern `pat`. -/
def isSubstrChars (pat : List Char) (l : List Char) : Bool :=
  isPrefixChars pat l ||
    (match l with
     | [] => false
     | _ :: rest => isSubstrChars pat rest)

/-- `s` starts with `pat` (models a string prefix test). -/
def startsWithStr (s pat : String) : Bool :=
  isPrefixChars pat.data s.data

/-- `s` contains `pat` as a substring (models JS `s.includes(pat)`). -/
def includesSubstr (s pat : String) : Bool :=
  isSubstrChars pat.data s.data

/-- No two adjacent slashes occur in the character list. -/
def noDS : List Char → Bool
  | [] => true
  | [_] => true
  | c1 :: c2 :: rest => !(c1 == '/' && c2 == '/') && noDS (c2 :: rest)

/-- Characters that are inert for the final rewrite phases of `url-join`
(no `?`, `&`, `#`) and cannot trigger its protocol rewriting (no `:`). -/
def urlPlainChar (c : Char) : Bool :=
  !(c == '?') && !(c == '&') && !(c == '#') && !(c == ':')

/-- All characters of the list are `urlPlainChar`. -/
def allPlain (l : List Char) : Bool :=
  l.all urlPlainChar

/-! ### JSON values (the image of `JSON.parse`) -/

/-- JSON-compatible values, the image of the external `JSON.parse`.
Numbers are modelled as integers; floating-point precision is outside the
model and not load-bearing for any claim. -/
inductive Json where
  | null : Json
  | bool (b : Bool) : Json
  | num (n : Int) : Json
  | str (s : String) : Json
  | arr (xs : List Json) : Json
  | obj (kvs : List (String × Json)) : Json

/-- Field access `props.publicPath` on the decoded props object, typed as
the optional string `buildLink` expects; any non-string or missing value
behaves as `undefined`. -/
def getPublicPathProp : Json → Option String
  | Json.obj kvs =>
    match kvs.lookup "publicPath" with
    | some (Json.str s) => some s
    | _ => none
  | _ => none

/-! ### UTF-8 and base64 (models of `Buffer.from(..., 'utf-8'/'base64')`) -/

/-- UTF-8 byte sequence of a character (as natural numbers below 256). -/
def utf8Bytes (c : Char) : List Nat :=
  let n := c.toNat
  if n < 128 then [n]
  else if n < 2048 then [192 + n / 64, 128 + n % 64]
  else if n < 65536 then [224 + n / 4096, 128 + (n / 64) % 64, 128 + n % 64]
  else [240 + n / 262144, 128 + (n / 4096) % 64, 128 + (n / 64) % 64, 128 + n % 64]

/-- UTF-8 bytes of a string. -/
def strBytes (s : String) : List Nat :=
  s.data.flatMap utf8Bytes

/-- The base64 alphabet. -/
def base64Alphabet : List Char :=
  "ABCDEFGHIJKLMNOPQRSTUVWXYZabcdefghijklmnopqrstuvwxyz0123456789+/".data

/-- Character for a 6-bit group. -/
def b64Char (n : Nat) : Char :=
  base64Alphabet.getD n 'A'

/-- Standard base64 encoding with padding, as produced by
`Buffer.prototype.toString('base64')`. -/
def base64Encode : List Nat → String
  | [] => ""
  | [a] =>
    String.mk [b64Char (a / 4), b64Char (a % 4 * 16), '=', '=']
  | [a, b] =>
    String.mk [b64Char (a / 4), b64Char (a % 4 * 16 + b / 16), b64Char (b % 16 * 4), '=']
  | a :: b :: c :: rest =>
    String.mk [b64Char (a / 4), b64Char (a % 4 * 16 + b / 16),
               b64Char (b % 16 * 4 + c / 64), b64Char (c % 64)]
      ++ base64Encode rest

/-- Models `new Buffer(s).toString('base64')`. -/
def base64EncodeStr (s : String) : String :=
  base64Encode (strBytes s)

/-! ### Node `path.posix` model -/

/-- Split a character list on `/`. -/
def splitOnSlash : List Char → List (List Char)
  | [] => [[]]
  | c :: rest =>
    if c = '/' then [] :: splitOnSlash rest
    else
      match splitOnSlash rest with
      | h :: t => (c :: h) :: t
      | [] => [[c]]

/-- Non-empty path segments of a string. -/
def pathSegs (s : String) : List String :=
  ((splitOnSlash s.data).filter (· ≠ [])).map String.mk

/-- Segment normalization of `path.posix.resolve` (its `normalizeString`
with `allowAboveRoot = false`): drop `.`, resolve `..` by popping. -/
def normSegs (segs : List String) : List String :=
  segs.foldl
    (fun acc seg =>
      if seg = "." then acc
      else if seg = ".." then acc.dropLast
      else acc ++ [seg])
    []

/-- Join strings with `/` separators (models `Array.prototype.join('/')`). -/
def joinSlash : List String → String
  | [] => ""
  | [x] => x
  | x :: rest => x ++ "/" ++ joinSlash rest

/-- Join strings with `&` separators (models `Array.prototype.join('&')`). -/
def joinAmp : List String → String
  | [] => ""
  | [x] => x
  | x :: rest => x ++ "&" ++ joinAmp rest

/-- Join strings with `,` separators (models `Array.prototype.join(',')`). -/
def joinComma : List String → String
  | [] => ""
  | [x] => x
  | x :: rest => x ++ "," ++ joinComma rest

/-- Models Node `path.posix.resolve` on a single argument; the process
working directory (only relevant for non-absolute inputs) is modelled
as `/`. -/
def posixResolve (p : String) : String :=
  let abs := if startsWithStr p "/" then p else "/" ++ p
  "/" ++ joinSlash (normSegs (pathSegs abs))

/-- Models Node `path.posix.relative from to`: after the short-circuit on
equal inputs and resolution of both arguments, the relative path is built
from the longest common segment prefix (`..` for each remaining `from`
segment, then the remaining `to` segments). -/
def commonPrefixLen : List String → List String → Nat
  | a :: as, b :: bs => if a = b then 1 + commonPrefixLen as bs else 0
  | _, _ => 0

/-- Node `path.posix.relative`. -/
def pathRelative (f t : String) : String :=
  if f = t then ""
  else
    let f' := posixResolve f
    let t' := posixResolve t
    if f' = t' then ""
    else
      let fs := pathSegs f'
      let ts := pathSegs t'
      let common := commonPrefixLen fs ts
      joinSlash (List.replicate (fs.length - common) ".." ++ ts.drop common)

/-! ### Data model (`./types`, shapes as used by `index.ts`) -/

/-- The decoded `routerProps` query parameter: base64 JSON with fields
`basePath` and `reqUrl`. -/
structure RouterProps where
  basePath : String
  reqUrl : String
deriving DecidableEq

/-- One `log.warn` call: the message plus, when a second argument is
passed (the caught error of `getPassedProps`), that error. -/
structure LogEntry where
  msg : String
  err : Option String
deriving DecidableEq

/-- The parsed request URL, restricted to what `index.ts` reads from it:
`href` and the two query parameters. `none` means the parameter is absent
from the query string; `some (Except.error e)` means it is present but the
external base64 + `JSON.parse` pipeline raised an exception with message
`e`; `some (Except.ok v)` means it decoded to `v`. -/
structure UrlModel where
  href : String
  routerProps : Option (Except String RouterProps)
  appProps : Option (Except String Json)

/-- The value returned by `processRequest`; the three closures of the
source are pure reads of captured values and are modelled as fields. -/
structure RequestData where
  getCurrentReqUrl : String
  getCurrentBasePath : String
  getCurrentPathProps : Json

/-- Intermediate record of `getRequestUrls`. -/
structure RequestUrls where
  basePageUrl : String
  requestUrl : String
deriving DecidableEq

/-- `AppAssets` of `./types`: `dependencies` is a string-keyed mapping
whose iteration order is insertion order, modelled as an association
list. -/
structure AppAssets where
  spaBundle : Option String := none
  cssBundle : Option String := none
  dependencies : List (String × String) := []

/-- `ResponseData` of `./types`. -/
structure ResponseData where
  pageTitle : Option String := none
  pageMetaTags : Option String := none
  appAssets : Option AppAssets := none

/-- The immutable configuration of an `IlcSdk` instance: the constructor
stores `publicPath` (default `/`) in `defaultPublicPath`; the logger is
modelled by the returned `LogEntry` lists. -/
structure IlcSdkConfig where
  defaultPublicPath : String := "/"

/-! ### Request decoder -/

/-- `getRequestUrls` of `index.ts`: defaults `basePageUrl = requestUrl = /`;
when `routerProps` is present its decoded fields overwrite them
(`requestUrl` is `/` plus `path.relative(basePath, reqUrl)`), and the
`JSON.parse` exception of a malformed value propagates (there is no
try/catch here); when it is absent a warning naming `url.href` is
logged. -/
def getRequestUrls (url : UrlModel) : Except String (RequestUrls × List LogEntry) :=
  match url.routerProps with
  | some (Except.error e) => Except.error e
  | some (Except.ok props) =>
    Except.ok
      ({ basePageUrl := props.basePath,
         requestUrl := "/" ++ pathRelative props.basePath props.reqUrl }, [])
  | none =>
    Except.ok
      ({ basePageUrl := "/", requestUrl := "/" },
       [{ msg := "Missing \"routerProps\" for \"" ++ url.href ++ "\" request. Fallback to / & /",
          err := none }])

/-- `getPassedProps` of `index.ts`: empty object when `appProps` is absent;
otherwise the decoded object, with a try/catch that turns a `JSON.parse`
exception into a warning (carrying the error) plus an empty object. -/
def getPassedProps (url : UrlModel) : Json × List LogEntry :=
  match url.appProps with
  | none => (Json.obj [], [])
  | some (Except.ok j) => (j, [])
  | some (Except.error e) =>
    (Json.obj [],
     [{ msg := "Error while parsing passed props. Falling back to empty object...",
        err := some e }])

/-- `processRequest` of `index.ts`: runs `getRequestUrls` then
`getPassedProps` on the parsed URL and packages the results; an exception
raised by `getRequestUrls` propagates to the caller. -/
def processRequest (url : UrlModel) : Except String (RequestData × List LogEntry) :=
  match getRequestUrls url with
  | Except.error e => Except.error e
  | Except.ok (requestedUrls, logs1) =>
    let passed := getPassedProps url
    Except.ok
      ({ getCurrentReqUrl := requestedUrls.requestUrl,
         getCurrentBasePath := requestedUrls.basePageUrl,
         getCurrentPathProps := passed.1 }, logs1 ++ passed.2)

/-! ### `url-join` (npm package, v4) model

`buildLink` calls `urljoin(pp, path)`. The package's `normalize` function
processes the argument array as follows: combine a plain-protocol first
element (`/^[^\x2fX:]+:\x2f*$/` with X a slash) with the next one;
rewrite the slashes after a leading protocol of the first element; strip
leading slashes of every component but the first and trailing slashes of
every component but the last (whose trailing run is collapsed to one
slash), dropping empty components; join with `/`; drop a slash standing
before `?`, `&`, or `#` followed by a non-`!` character; finally keep only
the first `?`, turning later ones into `&`. -/

/-- Strip every leading `/`. -/
def stripLeadingSlashes (s : String) : String :=
  String.mk (s.data.dropWhile (· == '/'))

/-- Strip every trailing `/`. -/
def stripTrailingSlashes (s : String) : String :=
  String.mk ((s.data.reverse.dropWhile (· == '/')).reverse)

/-- Collapse a trailing run of slashes to a single `/` (the regex
replacement of a trailing slash run by `/`). -/
def collapseTrailingSlashes (s : String) : String :=
  match s.data.getLast? with
  | some c => if c = '/' then stripTrailingSlashes s ++ "/" else s
  | none => s

/-- The first component matches the plain-protocol pattern: one or more
characters that are neither `/` nor `:`, then `:`, then only slashes up to
the end. -/
def isPlainProtocol (s : String) : Bool :=
  let pre := s.data.takeWhile (fun c => !(c == '/') && !(c == ':'))
  decide (pre ≠ []) &&
    (match s.data.drop pre.length with
     | ':' :: tail => tail.all (· == '/')
     | _ => false)

/-- Rewrite the slashes after a leading protocol of the first component:
a prefix matching one-or-more non-`/`-non-`:` characters, `:`, and any run
of slashes is replaced by the protocol, `:`, and exactly two slashes
(three for a component already starting `file:///`). Components with no
such prefix are unchanged. -/
def protocolNormalize (s : String) : String :=
  let pre := s.data.takeWhile (fun c => !(c == '/') && !(c == ':'))
  if pre = [] then s
  else
    match s.data.drop pre.length with
    | ':' :: tail =>
      let rest := tail.dropWhile (· == '/')
      let sep := if startsWithStr s "file:///" then ":///" else "://"
      String.mk pre ++ sep ++ String.mk rest
    | _ => s

/-- Per-component pass of `normalize`: skip empty components, strip
leading slashes except on the first component, strip trailing slashes
except on the last component, whose trailing run is collapsed to one. -/
def processComponents (arr : List String) : List String :=
  let n := arr.length
  arr.enum.filterMap
    (fun ic =>
      if ic.2 = "" then none
      else
        let c1 := if 0 < ic.1 then stripLeadingSlashes ic.2 else ic.2
        some (if ic.1 < n - 1 then stripTrailingSlashes c1 else collapseTrailingSlashes c1))

/-- Drop a `/` standing immediately before `?`, before `&`, or before `#`
followed by a character other than `!` (the global regex rewrite of
`normalize`); scanning resumes after each replaced occurrence. -/
def remSlashSpecial : List Char → List Char
  | [] => []
  | [c] => [c]
  | [c1, c2] => if c1 = '/' && (c2 = '?' || c2 = '&') then [c2] else [c1, c2]
  | c1 :: c2 :: c3 :: rest =>
    if c1 = '/' then
      if c2 = '?' || c2 = '&' then c2 :: remSlashSpecial (c3 :: rest)
      else if c2 = '#' then
        if c3 = '!' then c1 :: c2 :: remSlashSpecial (c3 :: rest)
        else c2 :: c3 :: remSlashSpecial rest
      else c1 :: remSlashSpecial (c2 :: c3 :: rest)
    else c1 :: remSlashSpecial (c2 :: c3 :: rest)

/-- Split a character list on `?` (models `String.prototype.split('?')`). -/
def splitOnQuestion : List Char → List (List Char)
  | [] => [[]]
  | c :: rest =>
    if c = '?' then [] :: splitOnQuestion rest
    else
      match splitOnQuestion rest with
      | h :: t => (c :: h) :: t
      | [] => [[c]]

/-- Keep the first `?` of the string and turn every later part separator
into `&` (the final step of `normalize`). -/
def questionRejoin (s : String) : String :=
  match splitOnQuestion s.data with
  | [] => s
  | first :: rest =>
    String.mk first ++ (if rest = [] then "" else "?") ++ joinAmp (rest.map String.mk)

/-- `urljoin(a, b)` of the `url-join` npm package (v4), specialised to the
two-argument call shape used by `buildLink`. -/
def urljoin2 (a b : String) : String :=
  let arr := if isPlainProtocol a then [a ++ b] else [a, b]
  let arr :=
    match arr with
    | [] => []
    | h :: t => protocolNormalize h :: t
  questionRejoin (String.mk (remSlashSpecial (joinSlash (processComponents arr)).data))

/-! ### Response encoder -/

/-- `buildLink` of `index.ts`: a path containing `http://` or `https://`
anywhere is returned unchanged; otherwise it is joined onto the public
path (the `publicPath` argument when truthy, i.e. present and non-empty,
else the configured default). -/
def buildLink (cfg : IlcSdkConfig) (p : String) (publicPath : Option String) : String :=
  if includesSubstr p "http://" || includesSubstr p "https://" then p
  else
    let pp :=
      match publicPath with
      | some s => if s = "" then cfg.defaultPublicPath else s
      | none => cfg.defaultPublicPath
    urljoin2 pp p

/-- The stylesheet entries contributed by `cssBundle` (one when the field
is truthy, none otherwise). -/
def cssLinks (cfg : IlcSdkConfig) (assets : AppAssets) (publicPath : Option String) : List String :=
  match assets.cssBundle with
  | some c =>
    if c = "" then []
    else ["<" ++ buildLink cfg c publicPath ++ ">; rel=\"stylesheet\""]
  | none => []

/-- The fragment-script entries contributed by `spaBundle`. -/
def spaLinks (cfg : IlcSdkConfig) (assets : AppAssets) (publicPath : Option String) : List String :=
  match assets.spaBundle with
  | some sb =>
    if sb = "" then []
    else
      ["<" ++ buildLink cfg sb publicPath ++
       ">; rel=\"fragment-script\"; as=\"script\"; crossorigin=\"anonymous\""]
  | none => []

/-- The fragment-dependency entries, one per `dependencies` key in the
mapping's insertion order. -/
def depLinks (cfg : IlcSdkConfig) (assets : AppAssets) (publicPath : Option String) : List String :=
  assets.dependencies.map
    (fun kv =>
      "<" ++ buildLink cfg kv.2 publicPath ++ ">; rel=\"fragment-dependency\"; name=\"" ++
        kv.1 ++ "\"")

/-- `getLinkHeader` of `index.ts`: push a stylesheet entry for a truthy
`cssBundle`, then a fragment-script entry for a truthy `spaBundle`, then
one fragment-dependency entry per own key of `dependencies` (iteration in
insertion order), and join all entries with `,`. -/
def getLinkHeader (cfg : IlcSdkConfig) (appAssets : AppAssets) (publicPath : Option String) : String :=
  let links : List String := []
  let links :=
    match appAssets.cssBundle with
    | some c =>
      if c = "" then links
      else links ++ ["<" ++ buildLink cfg c publicPath ++ ">; rel=\"stylesheet\""]
    | none => links
  let links :=
    match appAssets.spaBundle with
    | some sb =>
      if sb = "" then links
      else
        links ++
          ["<" ++ buildLink cfg sb publicPath ++
           ">; rel=\"fragment-script\"; as=\"script\"; crossorigin=\"anonymous\""]
    | none => links
  let links :=
    appAssets.dependencies.foldl
      (fun ls kv =>
        ls ++
          ["<" ++ buildLink cfg kv.2 publicPath ++ ">; rel=\"fragment-dependency\"; name=\"" ++
           kv.1 ++ "\""])
      links
  joinComma links

/-- `res.setHeader(name, value)`: last write wins; a fresh name is
appended. -/
def setHeader (hs : List (String × String)) (name value : String) : List (String × String) :=
  if hs.any (fun p => p.1 == name) then
    hs.map (fun p => if p.1 == name then (name, value) else p)
  else hs ++ [(name, value)]

/-- `processResponse` of `index.ts`: for a truthy `pageTitle`, set
`x-head-title` to the base64 of the literal `<title>...</title>` string;
for a truthy `pageMetaTags`, set `x-head-meta` to its base64; for a
present `appAssets`, set `Link` to the built link header, using the
`publicPath` field of the request's path props. The response is modelled
by its header list. -/
def processResponse (cfg : IlcSdkConfig) (reqData : RequestData)
    (res : List (String × String)) (data : ResponseData) : List (String × String) :=
  let res :=
    match data.pageTitle with
    | some t =>
      if t = "" then res
      else setHeader res "x-head-title" (base64EncodeStr ("<title>" ++ t ++ "</title>"))
    | none => res
  let res :=
    match data.pageMetaTags with
    | some m =>
      if m = "" then res
      else setHeader res "x-head-meta" (base64EncodeStr m)
    | none => res
  match data.appAssets with
  | some assets =>
    let publicPath := getPublicPathProp reqData.getCurrentPathProps
    setHeader res "Link" (getLinkHeader cfg assets publicPath)
  | none => res

/-- Modelled from the spec: the effective public path used by link
resolution is "the `publicPath` argument if provided and non-empty, else
the adapter's configured default public path". Stated separately from
`buildLink` (which inlines the source's truthiness ternary) so that the
two can be compared. -/
def effectivePublicPath (cfg : IlcSdkConfig) (publicPath : Option String) : String :=
  match publicPath with
  | some s => if s ≠ "" then s else cfg.defaultPublicPath
  | none => cfg.defaultPublicPath

/-! ### Sample request URLs for concrete instantiations -/

/-- A request with neither `routerProps` nor `appProps`. -/
def urlNoParams : UrlModel :=
  { href := "http://example.com/foo", routerProps := none, appProps := none }

/-- A request whose `routerProps` decodes to
`{"basePath":"/foo","reqUrl":"/foo/bar"}`. -/
def urlFooBar : UrlModel :=
  { href := "http://example.com/foo/bar?routerProps=eyJiYXNlUGF0aCI6Ii9mb28iLCJyZXFVcmwiOiIvZm9vL2JhciJ9",
    routerProps := some (Except.ok { basePath := "/foo", reqUrl := "/foo/bar" }),
    appProps := none }

/-- A request whose `routerProps` decodes with `reqUrl` equal to
`basePath`. -/
def urlEqualPaths : UrlModel :=
  { href := "http://example.com/foo?routerProps=eyJiYXNlUGF0aCI6Ii9mb28iLCJyZXFVcmwiOiIvZm9vIn0",
    routerProps := some (Except.ok { basePath := "/foo", reqUrl := "/foo" }),
    appProps := none }

/-- A request whose `appProps` parameter is present but fails
`JSON.parse`. -/
def urlBadAppProps : UrlModel :=
  { href := "http://example.com/foo?appProps=bm90LWpzb24",
    routerProps := none,
    appProps := some (Except.error "SyntaxError: Unexpected token o in JSON at position 1") }

/-- A request whose `routerProps` parameter is present but fails
`JSON.parse`. -/
def urlBadRouterProps : UrlModel :=
  { href := "http://example.com/foo?routerProps=bm90LWpzb24",
    routerProps := some (Except.error "SyntaxError: Unexpected token o in JSON at position 1"),
    appProps := none }

/-! ## Theorems -/

/-- C2: when the query string has no `routerProps` parameter,
`getRequestUrls` returns `basePageUrl = requestUrl = "/"` together with
exactly one warning naming the request URL, and `processRequest` returns
(rather than throws) `RequestData` with `currentBasePath` and
`currentRequestUrl` both `/`. -/
theorem getRequestUrls_missing_routerProps (url : UrlModel) (h : url.routerProps = none) :
    getRequestUrls url =
      Except.ok ({ basePageUrl := "/", requestUrl := "/" },
        [{ msg := "Missing \"routerProps\" for \"" ++ url.href ++ "\" request. Fallback to / & /",
           err := none }])
    ∧ processRequest url =
        Except.ok ({ getCurrentReqUrl := "/", getCurrentBasePath := "/",
                     getCurrentPathProps := (getPassedProps url).1 },
          { msg := "Missing \"routerProps\" for \"" ++ url.href ++ "\" request. Fallback to / & /",
            err := none } :: (getPassedProps url).2) := by
  constructor
  · simp [getRequestUrls, h]
  · simp [processRequest, getRequestUrls, h]

/-- Witness for C2 at a concrete request without `routerProps`. -/
theorem getRequestUrls_missing_routerProps_witness :
    getRequestUrls urlNoParams =
      Except.ok ({ basePageUrl := "/", requestUrl := "/" },
        [{ msg := "Missing \"routerProps\" for \"" ++ urlNoParams.href ++ "\" request. Fallback to / & /",
           err := none }])
    ∧ processRequest urlNoParams =
        Except.ok ({ getCurrentReqUrl := "/", getCurrentBasePath := "/",
                     getCurrentPathProps := (getPassedProps urlNoParams).1 },
          { msg := "Missing \"routerProps\" for \"" ++ urlNoParams.href ++ "\" request. Fallback to / & /",
            err := none } :: (getPassedProps urlNoParams).2) :=
  getRequestUrls_missing_routerProps urlNoParams rfl

/-- C1 (counterexample): a present but malformed `routerProps` parameter
is decoded by `JSON.parse` with no surrounding try/catch, so the parse
exception propagates out of `processRequest` instead of resolving to a
warning plus defaults. -/
theorem processRequest_malformed_routerProps_throws :
    processRequest urlBadRouterProps =
      Except.error "SyntaxError: Unexpected token o in JSON at position 1" := rfl

/-- C1 (amended): `processRequest` propagates no exception on any request
whose `routerProps`, when present, decodes successfully; the missing
`routerProps` and malformed `appProps` failure paths resolve to logged
warnings plus safe defaults. A present but malformed `routerProps` is the
one failure path that throws. -/
theorem processRequest_no_throw_unless_routerProps_malformed (url : UrlModel)
    (h : ∀ e, url.routerProps ≠ some (Except.error e)) :
    ∃ rd logs, processRequest url = Except.ok (rd, logs) := by
  rcases url with ⟨href, rp, ap⟩
  match rp with
  | none => exact ⟨_, _, rfl⟩
  | some (Except.ok props) => exact ⟨_, _, rfl⟩
  | some (Except.error e) => exact absurd rfl (h e)

/-- Witness for the amended C1 at a concrete request. -/
theorem processRequest_no_throw_unless_routerProps_malformed_witness :
    ∃ rd logs, processRequest urlNoParams = Except.ok (rd, logs) :=
  processRequest_no_throw_unless_routerProps_malformed urlNoParams (fun _ h => nomatch h)

/-- C3: when `routerProps` decodes to
`{"basePath":"/foo","reqUrl":"/foo/bar"}`, the decoder returns
`currentBasePath = "/foo"` and `currentRequestUrl = "/bar"` (that is,
`/` plus `path.relative("/foo", "/foo/bar")`). -/
theorem processRequest_routerProps_foo_bar (url : UrlModel)
    (h : url.routerProps = some (Except.ok { basePath := "/foo", reqUrl := "/foo/bar" })) :
    processRequest url =
      Except.ok ({ getCurrentReqUrl := "/bar", getCurrentBasePath := "/foo",
                   getCurrentPathProps := (getPassedProps url).1 },
                 (getPassedProps url).2) := by
  have hrel : ("/" : String) ++ pathRelative "/foo" "/foo/bar" = "/bar" := by decide
  simp [processRequest, getRequestUrls, h, hrel]

/-- Witness for C3 at a concrete request. -/
theorem processRequest_routerProps_foo_bar_witness :
    processRequest urlFooBar =
      Except.ok ({ getCurrentReqUrl := "/bar", getCurrentBasePath := "/foo",
                   getCurrentPathProps := (getPassedProps urlFooBar).1 },
                 (getPassedProps urlFooBar).2) :=
  processRequest_routerProps_foo_bar urlFooBar rfl

/-- C4: when `routerProps` decodes with `reqUrl` equal to `basePath`, the
relative path is empty and `currentRequestUrl` is `/`. -/
theorem processRequest_reqUrl_eq_basePath (url : UrlModel) (bp : String)
    (h : url.routerProps = some (Except.ok { basePath := bp, reqUrl := bp })) :
    processRequest url =
      Except.ok ({ getCurrentReqUrl := "/", getCurrentBasePath := bp,
                   getCurrentPathProps := (getPassedProps url).1 },
                 (getPassedProps url).2) := by
  have hrel : pathRelative bp bp = "" := by simp [pathRelative]
  simp [processRequest, getRequestUrls, h, hrel]

/-- Witness for C4 at a concrete request with equal paths. -/
theorem processRequest_reqUrl_eq_basePath_witness :
    processRequest urlEqualPaths =
      Except.ok ({ getCurrentReqUrl := "/", getCurrentBasePath := "/foo",
                   getCurrentPathProps := (getPassedProps urlEqualPaths).1 },
                 (getPassedProps urlEqualPaths).2) :=
  processRequest_reqUrl_eq_basePath urlEqualPaths "/foo" rfl

/-- C5: a present but malformed `appProps` parameter is caught: the
decoder logs one warning carrying the underlying error and falls back to
an empty mapping; `processRequest` still returns (the parse error is not
propagated) whenever `routerProps` itself does not independently throw,
and the returned `currentPathProps` is the empty mapping. -/
theorem getPassedProps_malformed_appProps (url : UrlModel) (e : String)
    (h : url.appProps = some (Except.error e)) :
    getPassedProps url =
      (Json.obj [],
       [{ msg := "Error while parsing passed props. Falling back to empty object...",
          err := some e }])
    ∧ (url.routerProps = none →
        ∃ rd logs, processRequest url = Except.ok (rd, logs)
          ∧ rd.getCurrentPathProps = Json.obj [])
    ∧ (∀ props, url.routerProps = some (Except.ok props) →
        ∃ rd logs, processRequest url = Except.ok (rd, logs)
          ∧ rd.getCurrentPathProps = Json.obj []) := by
  refine ⟨by simp [getPassedProps, h], ?_, ?_⟩
  · intro h2
    refine ⟨{ getCurrentReqUrl := "/", getCurrentBasePath := "/",
              getCurrentPathProps := Json.obj [] },
            [{ msg := "Missing \"routerProps\" for \"" ++ url.href ++ "\" request. Fallback to / & /",
               err := none },
             { msg := "Error while parsing passed props. Falling back to empty object...",
               err := some e }], ?_, rfl⟩
    simp [processRequest, getRequestUrls, getPassedProps, h, h2]
  · intro props h2
    refine ⟨{ getCurrentReqUrl := "/" ++ pathRelative props.basePath props.reqUrl,
              getCurrentBasePath := props.basePath,
              getCurrentPathProps := Json.obj [] },
            [{ msg := "Error while parsing passed props. Falling back to empty object...",
               err := some e }], ?_, rfl⟩
    simp [processRequest, getRequestUrls, getPassedProps, h, h2]

/-- Witness for C5 at a concrete request with malformed `appProps`. -/
theorem getPassedProps_malformed_appProps_witness :
    getPassedProps urlBadAppProps =
      (Json.obj [],
       [{ msg := "Error while parsing passed props. Falling back to empty object...",
          err := some "SyntaxError: Unexpected token o in JSON at position 1" }])
    ∧ (urlBadAppProps.routerProps = none →
        ∃ rd logs, processRequest urlBadAppProps = Except.ok (rd, logs)
          ∧ rd.getCurrentPathProps = Json.obj [])
    ∧ (∀ props, urlBadAppProps.routerProps = some (Except.ok props) →
        ∃ rd logs, processRequest urlBadAppProps = Except.ok (rd, logs)
          ∧ rd.getCurrentPathProps = Json.obj []) :=
  getPassedProps_malformed_appProps urlBadAppProps
    "SyntaxError: Unexpected token o in JSON at position 1" rfl

/-- C6: whenever `processRequest` returns (does not throw), the returned
`currentRequestUrl` begins with `/`: it is `/` itself on the missing
`routerProps` fallback and otherwise `/` prepended to the relative path
from `basePath` to `reqUrl`. -/
theorem processRequest_reqUrl_starts_with_slash (url : UrlModel) (rd : RequestData)
    (logs : List LogEntry) (h : processRequest url = Except.ok (rd, logs)) :
    (∃ rest, rd.getCurrentReqUrl = "/" ++ rest)
    ∧ (url.routerProps = none → rd.getCurrentReqUrl = "/")
    ∧ (∀ props, url.routerProps = some (Except.ok props) →
        rd.getCurrentReqUrl = "/" ++ pathRelative props.basePath props.reqUrl) := by
  rcases url with ⟨href, rp, ap⟩
  match rp with
  | none =>
    simp only [processRequest, getRequestUrls] at h
    rw [Except.ok.injEq, Prod.mk.injEq] at h
    obtain ⟨h1, -⟩ := h
    rw [← h1]
    refine ⟨⟨"", by simp⟩, fun _ => rfl, ?_⟩
    intro props hp
    exact absurd hp (by simp)
  | some (Except.error e) =>
    simp [processRequest, getRequestUrls] at h
  | some (Except.ok props) =>
    simp only [processRequest, getRequestUrls] at h
    rw [Except.ok.injEq, Prod.mk.injEq] at h
    obtain ⟨h1, -⟩ := h
    rw [← h1]
    refine ⟨⟨pathRelative props.basePath props.reqUrl, rfl⟩, by simp, ?_⟩
    intro props' hp
    rw [Option.some.injEq, Except.ok.injEq] at hp
    rw [← hp]

/-- Witness for C6 at a concrete request. -/
theorem processRequest_reqUrl_starts_with_slash_witness :
    (∃ rest,
      ({ getCurrentReqUrl := "/", getCurrentBasePath := "/",
         getCurrentPathProps := Json.obj [] } : RequestData).getCurrentReqUrl = "/" ++ rest)
    ∧ (urlNoParams.routerProps = none →
        ({ getCurrentReqUrl := "/", getCurrentBasePath := "/",
           getCurrentPathProps := Json.obj [] } : RequestData).getCurrentReqUrl = "/")
    ∧ (∀ props, urlNoParams.routerProps = some (Except.ok props) →
        ({ getCurrentReqUrl := "/", getCurrentBasePath := "/",
           getCurrentPathProps := Json.obj [] } : RequestData).getCurrentReqUrl =
          "/" ++ pathRelative props.basePath props.reqUrl) :=
  processRequest_reqUrl_starts_with_slash urlNoParams _ _ rfl

/-- Pushing elements one by one onto an accumulator is the same as
appending the mapped list. -/
theorem foldl_push {α : Type} (f : α → String) :
    ∀ (l : List α) (init : List String),
      l.foldl (fun ls kv => ls ++ [f kv]) init = init ++ l.map f := by
  intro l
  induction l with
  | nil => intro init; simp
  | cons a t ih => intro init; simp [ih]

/-- C7: encoding `{ pageTitle := "Hi" }` sets exactly the `x-head-title`
header, to the base64 of the literal `<title>Hi</title>` string (which is
`PHRpdGxlPkhpPC90aXRsZT4=`); neither `Link` nor `x-head-meta` is set by
the call. -/
theorem processResponse_pageTitle_only (cfg : IlcSdkConfig) (rd : RequestData)
    (hs : List (String × String)) :
    processResponse cfg rd hs
        { pageTitle := some "Hi", pageMetaTags := none, appAssets := none } =
      setHeader hs "x-head-title" (base64EncodeStr ("<title>" ++ "Hi" ++ "</title>"))
    ∧ base64EncodeStr ("<title>" ++ "Hi" ++ "</title>") = "PHRpdGxlPkhpPC90aXRsZT4=" := by
  constructor
  · simp [processResponse]
  · decide

/-- C8: the `Link` header builder emits its entries in the fixed order
stylesheet (for a present `cssBundle`), then fragment-script (for a
present `spaBundle`), then one fragment-dependency entry per
`dependencies` key in insertion order, joined by commas; at the concrete
assets `{ spaBundle: "main.js", dependencies: {shared: "shared.js"} }`
with default public path `/`, the header is exactly the expected
two-entry string. -/
theorem getLinkHeader_order_and_example (cfg : IlcSdkConfig) (assets : AppAssets)
    (pp : Option String) :
    getLinkHeader cfg assets pp =
      joinComma (cssLinks cfg assets pp ++ spaLinks cfg assets pp ++ depLinks cfg assets pp)
    ∧ getLinkHeader { defaultPublicPath := "/" }
        { spaBundle := some "main.js", cssBundle := none,
          dependencies := [("shared", "shared.js")] } none =
      "</main.js>; rel=\"fragment-script\"; as=\"script\"; crossorigin=\"anonymous\",</shared.js>; rel=\"fragment-dependency\"; name=\"shared\"" := by
  constructor
  · rcases assets with ⟨sb, cb, deps⟩
    rw [getLinkHeader, foldl_push]
    rcases cb with - | c
    all_goals rcases sb with - | s
    all_goals simp only [cssLinks, spaLinks, depLinks]
    all_goals try split
    all_goals try split
    all_goals simp
  · decide

/-- A prefix occurrence is in particular a substring occurrence. -/
theorem isSubstr_of_isPrefix (pat l : List Char) (h : isPrefixChars pat l = true) :
    isSubstrChars pat l = true := by
  rw [isSubstrChars.eq_def, h, Bool.true_or]

theorem noDS_of_cons (c : Char) (l : List Char) (h : noDS (c :: l) = true) :
    noDS l = true := by
  cases l with
  | nil => rfl
  | cons d t =>
    rw [noDS, Bool.and_eq_true] at h
    exact h.2

theorem noDS_append_left : ∀ (x y : List Char), noDS (x ++ y) = true → noDS x = true := by
  intro x
  induction x with
  | nil => exact fun y _ => rfl
  | cons c x' ih =>
    intro y h
    cases x' with
    | nil => rfl
    | cons d t =>
      have h' : noDS (c :: d :: (t ++ y)) = true := h
      rw [noDS, Bool.and_eq_true] at h'
      rw [noDS, Bool.and_eq_true]
      exact ⟨h'.1, ih y h'.2⟩

theorem noDS_append_right : ∀ (x y : List Char), noDS (x ++ y) = true → noDS y = true := by
  intro x
  induction x with
  | nil => exact fun y h => h
  | cons c x' ih =>
    intro y h
    exact ih y (noDS_of_cons c (x' ++ y) h)

theorem head_dropWhile_false {p : Char → Bool} : ∀ (l : List Char) (c : Char),
    (l.dropWhile p).head? = some c → p c = false := by
  intro l
  induction l with
  | nil => intro c h; simp [List.dropWhile] at h
  | cons a t ih =>
    intro c h
    rw [List.dropWhile_cons] at h
    by_cases hp : p a
    · rw [if_pos hp] at h; exact ih c h
    · rw [if_neg hp] at h
      rw [List.head?_cons, Option.some.injEq] at h
      subst h
      simpa using hp

theorem noDS_append_mid : ∀ (x y : List Char), noDS x = true → noDS y = true →
    (x.getLast? = some '/' → y.head? ≠ some '/') → noDS (x ++ y) = true := by
  intro x
  induction x with
  | nil => intro y _ hy _; exact hy
  | cons c x' ih =>
    intro y hx hy hlast
    cases x' with
    | nil =>
      cases y with
      | nil => rfl
      | cons d t =>
        show noDS (c :: d :: t) = true
        rw [noDS, Bool.and_eq_true]
        refine ⟨?_, hy⟩
        by_cases hc : c = '/'
        · have hd : d ≠ '/' := by
            intro hd
            exact hlast (by simp [hc]) (by simp [hd])
          simp [hc, hd]
        · simp [hc]
    | cons e t' =>
      have hx1 : (!(c == '/' && e == '/')) = true := by
        rw [noDS, Bool.and_eq_true] at hx
        exact hx.1
      have hx' : noDS (e :: t') = true := noDS_of_cons c (e :: t') hx
      have hlast' : (e :: t').getLast? = some '/' → y.head? ≠ some '/' := by
        intro hl
        exact hlast (by rw [List.getLast?_cons_cons]; exact hl)
      have hmid := ih y hx' hy hlast'
      show noDS (c :: e :: (t' ++ y)) = true
      rw [noDS, Bool.and_eq_true]
      exact ⟨hx1, hmid⟩

theorem stripTrailing_decomp (s : String) :
    s.data = (stripTrailingSlashes s).data ++ (s.data.reverse.takeWhile (· == '/')).reverse := by
  have h := List.takeWhile_append_dropWhile (p := (· == '/')) (l := s.data.reverse)
  have h2 := congrArg List.reverse h
  rw [List.reverse_append, List.reverse_reverse] at h2
  exact h2.symm

theorem stripLeading_decomp (s : String) :
    s.data = s.data.takeWhile (· == '/') ++ (stripLeadingSlashes s).data :=
  (List.takeWhile_append_dropWhile (p := (· == '/')) (l := s.data)).symm

theorem noDS_stripTrailing (s : String) (h : noDS s.data = true) :
    noDS (stripTrailingSlashes s).data = true :=
  noDS_append_left _ _ (stripTrailing_decomp s ▸ h)

theorem noDS_stripLeading (s : String) (h : noDS s.data = true) :
    noDS (stripLeadingSlashes s).data = true :=
  noDS_append_right _ _ (stripLeading_decomp s ▸ h)

theorem stripTrailing_getLast_ne (s : String) (c : Char)
    (h : (stripTrailingSlashes s).data.getLast? = some c) : (c == '/') = false := by
  rw [show (stripTrailingSlashes s).data = (s.data.reverse.dropWhile (· == '/')).reverse from rfl,
      List.getLast?_reverse] at h
  exact head_dropWhile_false _ c h

theorem stripLeading_head_ne (s : String) (c : Char)
    (h : (stripLeadingSlashes s).data.head? = some c) : (c == '/') = false :=
  head_dropWhile_false _ c h

theorem mem_stripTrailing (s : String) (c : Char) (h : c ∈ (stripTrailingSlashes s).data) :
    c ∈ s.data := by
  rw [stripTrailing_decomp s]
  exact List.mem_append_left _ h

theorem mem_stripLeading (s : String) (c : Char) (h : c ∈ (stripLeadingSlashes s).data) :
    c ∈ s.data := by
  rw [stripLeading_decomp s]
  exact List.mem_append_right _ h

theorem allPlain_mem (l : List Char) (h : allPlain l = true) (c : Char) (hc : c ∈ l) :
    c ≠ '?' ∧ c ≠ '&' ∧ c ≠ '#' := by
  rw [allPlain, List.all_eq_true] at h
  have h2 := h c hc
  rw [urlPlainChar] at h2
  simp at h2
  obtain ⟨⟨⟨hq, ha⟩, hh⟩, -⟩ := h2
  exact ⟨hq, ha, hh⟩

theorem collapseTrailing_id (s : String) (h : noDS s.data = true) :
    collapseTrailingSlashes s = s := by
  rw [collapseTrailingSlashes.eq_def]
  cases hl : s.data.getLast? with
  | none => rfl
  | some c =>
    show (if c = '/' then stripTrailingSlashes s ++ "/" else s) = s
    by_cases hc : c = '/'
    · rw [if_pos hc]
      subst hc
      -- show stripTrailingSlashes s ++ "/" = s
      have hrev : s.data.reverse.head? = some '/' := by
        rw [List.head?_reverse]
        exact hl
      obtain ⟨r', hr⟩ : ∃ r', s.data.reverse = '/' :: r' := by
        cases hrv : s.data.reverse with
        | nil => rw [hrv] at hrev; simp at hrev
        | cons c0 t0 =>
          rw [hrv, List.head?_cons, Option.some.injEq] at hrev
          exact ⟨t0, by rw [← hrev]⟩
      have htw : r'.takeWhile (· == '/') = [] := by
        cases hr' : r' with
        | nil => rfl
        | cons c1 t1 =>
          rw [List.takeWhile_cons]
          by_cases hc1 : c1 = '/'
          · exfalso
            have hsd : s.data = t1.reverse ++ ['/', '/'] := by
              have := congrArg List.reverse hr
              rw [List.reverse_reverse] at this
              rw [this, hr', hc1]
              simp
            rw [hsd] at h
            have := noDS_append_right _ _ h
            simp [noDS] at this
          · simp [hc1]
      have hdw : r'.dropWhile (· == '/') = r' := by
        have := List.takeWhile_append_dropWhile (p := (· == '/')) (l := r')
        rw [htw, List.nil_append] at this
        exact this
      have hstrip : (stripTrailingSlashes s).data = r'.reverse := by
        show (s.data.reverse.dropWhile (· == '/')).reverse = r'.reverse
        rw [hr, List.dropWhile_cons, if_pos (by simp), hdw]
      have hgoal : (stripTrailingSlashes s ++ "/").data = s.data := by
        rw [String.data_append, hstrip]
        have := congrArg List.reverse hr
        rw [List.reverse_reverse] at this
        rw [this]
        simp
      exact congrArg String.mk hgoal
    · rw [if_neg hc]

theorem splitOnQuestion_id (l : List Char) (h : ∀ c ∈ l, c ≠ '?') :
    splitOnQuestion l = [l] := by
  induction l with
  | nil => rfl
  | cons c rest ih =>
    rw [splitOnQuestion]
    rw [if_neg (h c (by simp))]
    rw [ih (fun c' hc' => h c' (by simp [hc']))]

theorem questionRejoin_id (s : String) (h : ∀ c ∈ s.data, c ≠ '?') :
    questionRejoin s = s := by
  rw [questionRejoin, splitOnQuestion_id s.data h]
  simp [joinAmp]

theorem remSlashSpecial_id : ∀ (l : List Char),
    (∀ c ∈ l, c ≠ '?' ∧ c ≠ '&' ∧ c ≠ '#') → remSlashSpecial l = l
  | [], _ => rfl
  | [_], _ => rfl
  | [c1, c2], h => by
    have h2 := h c2 (by simp)
    rw [remSlashSpecial]
    rw [if_neg]
    simp [h2.1, h2.2.1]
  | c1 :: c2 :: c3 :: rest, h => by
    have h2 := h c2 (by simp)
    have hrec : remSlashSpecial (c2 :: c3 :: rest) = c2 :: c3 :: rest :=
      remSlashSpecial_id (c2 :: c3 :: rest) (fun c hc => h c (List.mem_cons_of_mem _ hc))
    rw [remSlashSpecial]
    by_cases hc1 : c1 = '/'
    · rw [if_pos (by simp [hc1])]
      rw [if_neg (by simp [h2.1, h2.2.1])]
      rw [if_neg (by simp [h2.2.2])]
      rw [hrec]
    · rw [if_neg (by simp [hc1])]
      rw [hrec]

theorem processComponents_pair (x y : String) (hx : x ≠ "") (hy : y ≠ "") :
    processComponents [x, y] =
      [stripTrailingSlashes x, collapseTrailingSlashes (stripLeadingSlashes y)] := by
  rw [processComponents]
  simp [List.enum, List.enumFrom, List.filterMap, hx, hy]

/-- On a slash-headed first component and inputs free of duplicate
slashes and of the special characters of the final rewrite phases,
`urljoin2` is exactly the slash-trimmed concatenation with a single `/`
at the seam, and its result has no double slash. -/
theorem urljoin2_clean (a b : String)
    (ha : startsWithStr a "/" = true)
    (hnda : noDS a.data = true) (hpa : allPlain a.data = true)
    (hb : b ≠ "") (hndb : noDS b.data = true) (hpb : allPlain b.data = true) :
    urljoin2 a b = stripTrailingSlashes a ++ "/" ++ stripLeadingSlashes b
    ∧ noDS (urljoin2 a b).data = true := by
  obtain ⟨as, hasd⟩ : ∃ as, a.data = '/' :: as := by
    rw [startsWithStr] at ha
    cases hd : a.data with
    | nil => rw [hd] at ha; simp [isPrefixChars] at ha
    | cons c rest =>
      rw [hd] at ha
      simp [isPrefixChars] at ha
      exact ⟨rest, by rw [← ha]⟩
  have ha_ne : a ≠ "" := by
    intro he
    rw [he] at hasd
    simp at hasd
  have hproto : isPlainProtocol a = false := by
    rw [isPlainProtocol, hasd]
    simp [List.takeWhile_cons]
  have hnorm : protocolNormalize a = a := by
    rw [protocolNormalize, hasd]
    simp [List.takeWhile_cons]
  have hU := noDS_stripTrailing a hnda
  have hV := noDS_stripLeading b hndb
  have hcollapse : collapseTrailingSlashes (stripLeadingSlashes b) = stripLeadingSlashes b :=
    collapseTrailing_id _ hV
  have hjoin : joinSlash (processComponents [a, b]) =
      stripTrailingSlashes a ++ "/" ++ stripLeadingSlashes b := by
    rw [processComponents_pair a b ha_ne hb, hcollapse]
    rfl
  set U := stripTrailingSlashes a with hUdef
  set V := stripLeadingSlashes b with hVdef
  have hdata : (U ++ "/" ++ V).data = U.data ++ '/' :: V.data := by
    rw [String.data_append, String.data_append]
    simp
  have hplainL : ∀ c ∈ (U ++ "/" ++ V).data, c ≠ '?' ∧ c ≠ '&' ∧ c ≠ '#' := by
    intro c hc
    rw [hdata] at hc
    rcases List.mem_append.mp hc with hcU | hcV
    · exact allPlain_mem a.data hpa c (mem_stripTrailing a c hcU)
    · rcases List.mem_cons.mp hcV with hslash | hcV'
      · subst hslash
        refine ⟨by decide, by decide, by decide⟩
      · exact allPlain_mem b.data hpb c (mem_stripLeading b c hcV')
  have hrem : remSlashSpecial (U ++ "/" ++ V).data = (U ++ "/" ++ V).data :=
    remSlashSpecial_id _ hplainL
  have heq : urljoin2 a b = U ++ "/" ++ V := by
    rw [urljoin2]
    rw [hproto]
    simp only [Bool.false_eq_true, if_false]
    rw [hnorm, hjoin, hrem]
    have hmk : String.mk (U ++ "/" ++ V).data = U ++ "/" ++ V := rfl
    rw [hmk]
    exact questionRejoin_id _ (fun c hc => (hplainL c hc).1)
  have hnods : noDS (urljoin2 a b).data = true := by
    rw [heq, hdata]
    apply noDS_append_mid
    · exact hU
    · cases hVd : V.data with
      | nil => rfl
      | cons d t =>
        rw [noDS, Bool.and_eq_true]
        constructor
        · have hd : (d == '/') = false := by
            apply stripLeading_head_ne b d
            rw [← hVdef, hVd, List.head?_cons]
          simp at hd
          simp [hd]
        · exact hVd ▸ hV
    · intro hlastU
      have := stripTrailing_getLast_ne a '/' (by rw [← hUdef]; exact hlastU)
      simp at this
  exact ⟨heq, hnods⟩

/-- C9: link resolution returns an absolute `http://` or `https://` URL
unchanged regardless of public path; otherwise it joins the path onto the
effective public path (the `publicPath` argument when provided and
non-empty, else the configured default), and on slash-normalized inputs
that join is exactly the slash-trimmed concatenation — a single slash at
the seam, no double slashes, no dropped segments. -/
theorem buildLink_resolution (cfg : IlcSdkConfig) (p s : String) (pp : Option String) :
    (startsWithStr p "http://" = true ∨ startsWithStr p "https://" = true →
      buildLink cfg p pp = p)
    ∧ (includesSubstr p "http://" = false → includesSubstr p "https://" = false →
      buildLink cfg p pp = urljoin2 (effectivePublicPath cfg pp) p)
    ∧ (startsWithStr s "/" = true → noDS s.data = true → allPlain s.data = true →
       p ≠ "" → noDS p.data = true → allPlain p.data = true →
       urljoin2 s p = stripTrailingSlashes s ++ "/" ++ stripLeadingSlashes p
       ∧ noDS (urljoin2 s p).data = true) := by
  refine ⟨?_, ?_, ?_⟩
  · intro h
    rcases h with h | h
    · have h1 : includesSubstr p "http://" = true := isSubstr_of_isPrefix _ _ h
      simp [buildLink, h1]
    · have h1 : includesSubstr p "https://" = true := isSubstr_of_isPrefix _ _ h
      simp [buildLink, h1]
  · intro h1 h2
    rw [buildLink.eq_def, if_neg (by simp [h1, h2])]
    rcases pp with - | s'
    · rfl
    · rw [effectivePublicPath]
      by_cases hs : s' = ""
      · simp [hs]
      · simp [hs]
  · intro h1 h2 h3 h4 h5 h6
    exact urljoin2_clean s p h1 h2 h3 h4 h5 h6

/-- Witness for C9 at concrete asset paths and public paths. -/
theorem buildLink_resolution_witness :
    buildLink { defaultPublicPath := "/" } "http://cdn/x.js" (some "/assets") = "http://cdn/x.js"
    ∧ buildLink { defaultPublicPath := "/" } "main.js" (some "/assets") =
        urljoin2 (effectivePublicPath { defaultPublicPath := "/" } (some "/assets")) "main.js"
    ∧ (urljoin2 "/assets" "main.js" =
        stripTrailingSlashes "/assets" ++ "/" ++ stripLeadingSlashes "main.js"
       ∧ noDS (urljoin2 "/assets" "main.js").data = true) :=
  ⟨(buildLink_resolution { defaultPublicPath := "/" } "http://cdn/x.js" "/" (some "/assets")).1
      (Or.inl (by decide)),
   (buildLink_resolution { defaultPublicPath := "/" } "main.js" "/" (some "/assets")).2.1
      (by decide) (by decide),
   (buildLink_resolution { defaultPublicPath := "/" } "main.js" "/assets" (some "/assets")).2.2
      (by decide) (by decide) (by decide) (by decide) (by decide) (by decide)⟩

/-- C10: `buildLink` classifies a path as absolute by a substring test,
not a prefix test — any path containing `http://` or `https://` anywhere
is returned unchanged and never joined onto the public path. -/
theorem buildLink_substring_not_prefix (cfg : IlcSdkConfig) (p : String) (pp : Option String)
    (h : includesSubstr p "http://" = true ∨ includesSubstr p "https://" = true) :
    buildLink cfg p pp = p := by
  rcases h with h | h
  · simp [buildLink, h]
  · simp [buildLink, h]

/-- Witness for C10 at the relative path `assets/http://x.js`, which
contains `http://` without starting with it. -/
theorem buildLink_substring_not_prefix_witness :
    startsWithStr "assets/http://x.js" "http://" = false
    ∧ buildLink { defaultPublicPath := "/" } "assets/http://x.js" (some "/assets") =
        "assets/http://x.js" :=
  ⟨by decide,
   buildLink_substring_not_prefix { defaultPublicPath := "/" } "assets/http://x.js"
     (some "/assets") (Or.inl (by decide))⟩
